import Mathlib

/-!
Verification of the skill-evaluator scoring and orchestration engine.

This file gives a shallow embedding, in Lean 4, of the scoring, matching,
parsing and container-orchestration code of the repository
(`src/evaluate.py` and `src/evaluator.py`), and proves or refutes a fixed
list of specification claims about that code.

Modelling conventions:
* Python `int` is `Int` (or `Nat` where the source can only produce
  non-negative values), Python `float` results of exact arithmetic on the
  counters are modelled as `ℚ` (the formulas proved here are the exact
  rational formulas the source computes in IEEE doubles),
* a Python function that can raise an exception is modelled as returning
  `Option`/`Except`, with `none`/`.error` meaning "raises",
* Python tuples/lists become `List`, Python sets become `Finset`,
* effectful collaborators (the Docker client, the LLM client, the clock)
  are modelled as explicit script/oracle arguments.
-/

set_option maxHeartbeats 1000000
set_option maxRecDepth 100000

/-! Section: data model of `src/evaluate.py`. -/

/-- Model of `Finding`: a single finding from a skill's code review output. -/
structure Finding where
  category : String
  severity : String
  confidence : Int
  file : String
  line_range : Int × Int
  description : String
  reasoning : String
deriving DecidableEq, Repr

/-- Model of `ExpectedFinding`: an expected finding from ground truth.
`consolidated_with` holds sibling indices (Python `tuple[int, ...]`). -/
structure ExpectedFinding where
  category : String
  severity : String
  file : String
  line_range : Int × Int
  description : String
  keywords : List String
  consolidated_with : List Int := []
deriving DecidableEq, Repr, Inhabited

/-- Model of `GroundTruth`: ground truth for a scenario. -/
structure GroundTruth where
  expected_findings : List ExpectedFinding
  expected_clean : Bool
  max_acceptable_findings : Int
  language : String
  difficulty : String
deriving DecidableEq, Repr

/-- Model of `ScenarioResult`: evaluation result for a single scenario.
`false_negatives` is `Int` because the source computes
`len(expected) - tp` with no clamping. -/
structure ScenarioResult where
  scenario_name : String
  skill_name : String
  true_positives : Nat
  false_positives : Nat
  false_negatives : Int
  precision : ℚ
  recall' : ℚ
  f05 : ℚ
  duration_seconds : ℚ
  duplicates : Nat
  findings : List Finding
  matched_expected : List Int
  unmatched_findings : List Finding
deriving DecidableEq, Repr

/-- Model of `count_duplicates`: count pairs of findings on the same file whose
line-range endpoints each differ by at most 3 (source lines 104-113). -/
def count_duplicates (findings : List Finding) : Nat :=
  (findings.enum.map (fun p =>
    ((findings.drop (p.1 + 1)).filter (fun b =>
      p.2.file = b.file ∧
      (p.2.line_range.1 - b.line_range.1).natAbs ≤ 3 ∧
      (p.2.line_range.2 - b.line_range.2).natAbs ≤ 3)).length)).sum

/-- Model of `MatchResponse`, the pydantic response schema: a `reasoning` string
capped at 2000 characters and an unconstrained `matches : list[int | None]`. -/
structure MatchResponse where
  reasoning : String
  matches' : List (Option Int)
deriving DecidableEq, Repr

/-- Pydantic validation of `MatchResponse`: the only constraint is
`Field(max_length=2000)` on `reasoning`; nothing bounds the ints in
`matches`. -/
def matchResponseSchemaOk (r : MatchResponse) : Prop :=
  r.reasoning.length ≤ 2000

instance (r : MatchResponse) : Decidable (matchResponseSchemaOk r) := by
  unfold matchResponseSchemaOk; infer_instance

/-- Python list indexing `xs[i]`: non-negative indices from the front,
negative indices from the back, `IndexError` (here `none`) otherwise. -/
def pyGetList {α : Type} (xs : List α) (i : Int) : Option α :=
  if 0 ≤ i then xs.get? i.toNat
  else if 0 ≤ i + xs.length then xs.get? (i + xs.length).toNat
  else none

/-- Sequencing of a possibly-raising Python loop body over a list:
process elements in order, propagating the first exception. -/
def optionMapM {α β : Type} (f : α → Option β) : List α → Option (List β)
  | [] => some []
  | a :: l => do
    let b ← f a
    let bs ← optionMapM f l
    return b :: bs

/-- The consolidation lookup the scorer performs for one matched index:
`ground_truth.expected_findings[idx].consolidated_with` (can raise). -/
def consolidationOf (expected : List ExpectedFinding) (idx : Int) :
    Option (List Int) :=
  (pyGetList expected idx).map (·.consolidated_with)

/-- Insertion step of the ascending sort modelling Python `sorted`. -/
def insertAsc (x : Int) : List Int → List Int
  | [] => [x]
  | y :: ys => if x ≤ y then x :: y :: ys else y :: insertAsc x ys

/-- Ascending insertion sort over `Int`, modelling Python `sorted`. -/
def sortedInts (l : List Int) : List Int := l.foldr insertAsc []

/-- Model of `score_scenario` (source lines 121-160): compute TP/FP/FN and the
precision/recall/F0.5 metrics from findings and match results.  Returns
`none` when the Python code would raise (an out-of-range match index makes
`expected_findings[idx]` fail during consolidation expansion).
Python `set` values are modelled as deduplicated lists; the iteration
order of a Python set is unspecified, and nothing computed below depends
on the order chosen here. -/
def score_scenario (scenario_name : String) (skill_name : String)
    (findings : List Finding) (ground_truth : GroundTruth)
    (matches' : List (Option Int)) (duration : ℚ) : Option ScenarioResult := do
  let matched_gt_indices : List Int := (matches'.filterMap id).dedup
  let groups ← optionMapM (consolidationOf ground_truth.expected_findings)
    matched_gt_indices
  let expanded : List Int := (matched_gt_indices ++ groups.flatten).dedup
  let tp : Nat := expanded.length
  let fp : Nat := matches'.countP (·.isNone)
  let fn : Int := (ground_truth.expected_findings.length : Int) - (tp : Int)
  let precision : ℚ := if 0 < tp + fp then (tp : ℚ) / ((tp : ℚ) + (fp : ℚ)) else 1
  let recallVal : ℚ := if 0 < (tp : Int) + fn then (tp : ℚ) / ((tp : ℚ) + (fn : ℚ)) else 1
  let beta_sq : ℚ := 1 / 4
  let f05 : ℚ :=
    if 0 < precision + recallVal then
      (1 + beta_sq) * precision * recallVal / (beta_sq * precision + recallVal)
    else 0
  let unmatched := ((findings.zip matches').filter (fun p => p.2.isNone)).map (·.1)
  return {
    scenario_name := scenario_name
    skill_name := skill_name
    true_positives := tp
    false_positives := fp
    false_negatives := fn
    precision := precision
    recall' := recallVal
    f05 := f05
    duration_seconds := duration
    duplicates := count_duplicates findings
    findings := findings
    matched_expected := sortedInts matched_gt_indices
    unmatched_findings := unmatched
  }

/-! Section: the deterministic matcher, `src/evaluate.py` lines 163-184. -/

/-- Model of `_line_ranges_overlap`: inclusive ranges overlap. -/
def _line_ranges_overlap (a b : Int × Int) : Bool :=
  a.1 ≤ b.2 ∧ b.1 ≤ a.2

/-- The match criterion of the deterministic stage: identical file path
and overlapping inclusive line ranges. -/
def matchPred (f : Finding) (ef : ExpectedFinding) : Bool :=
  f.file = ef.file ∧ _line_ranges_overlap f.line_range ef.line_range

/-- The inner loop of `_deterministic_pre_match`: scan `expected` from
index `j0`, returning the first index not in `used` whose entry matches
`f`. -/
def scanExpected (f : Finding) : List ExpectedFinding → Nat → Finset Nat →
    Option Nat
  | [], _, _ => none
  | ef :: rest, j, used =>
    if j ∉ used ∧ matchPred f ef then some j
    else scanExpected f rest (j + 1) used

/-- The outer loop of `_deterministic_pre_match`, threading the
`used_expected` set through the findings in order. -/
def preMatchAux : List Finding → List ExpectedFinding → Finset Nat →
    List (Option Nat)
  | [], _, _ => []
  | f :: fs, expected, used =>
    match scanExpected f expected 0 used with
    | some j => some j :: preMatchAux fs expected (insert j used)
    | none => none :: preMatchAux fs expected used

/-- Model of `_deterministic_pre_match`: match findings to expected by same file +
overlapping line range; first unclaimed expected index wins. -/
def _deterministic_pre_match (findings : List Finding)
    (expected : List ExpectedFinding) : List (Option Nat) :=
  preMatchAux findings expected ∅

/-! Section: the LLM fallback matcher, `src/evaluate.py` lines 187-267. -/

/-- The `remaining_expected` computation of `match_findings_llm`
(source lines 205-209): expected entries, with their original indices,
not yet claimed by the deterministic pass. -/
def remainingExpected (expected : List ExpectedFinding) (used : Finset Nat) :
    List (Nat × ExpectedFinding) :=
  expected.enum.filter (fun p => p.1 ∉ used)

/-- The payload of the single LLM request `match_findings_llm` can issue:
the unmatched actual findings, in order, and the remaining expected
entries with their original indices.  (The `json.dumps` serialization of
this payload into the prompt string is not modelled; its content is.) -/
structure LlmCall where
  actualFindings : List Finding
  expectedEntries : List (Nat × ExpectedFinding)
deriving DecidableEq, Repr

/-- The merge loop of `match_findings_llm` (source lines 265-266):
`for idx, llm_match in zip(unmatched_indices, parsed.matches):
pre_matches[idx] = llm_match`. -/
def mergeMatches (pre : List (Option Int)) (idxs : List Nat)
    (llm : List (Option Int)) : List (Option Int) :=
  (idxs.zip llm).foldl (fun acc p => acc.set p.1 p.2) pre

/-- Model of `match_findings_llm`: deterministic pre-matching followed by an
optional LLM request.  The LLM client is modelled by the oracle
`llmMatches` (the `matches` list of the schema-validated response); the
second component records the request payload (`none` = no request
issued). -/
def match_findings_llm (findings : List Finding) (ground_truth : GroundTruth)
    (llmMatches : List (Option Int)) :
    List (Option Int) × Option LlmCall :=
  let pre0 : List (Option Nat) :=
    _deterministic_pre_match findings ground_truth.expected_findings
  let pre_matches : List (Option Int) := pre0.map (Option.map (Int.ofNat))
  if pre_matches.all (·.isSome) ∨ findings = [] then (pre_matches, none)
  else
    let unmatched_indices : List Nat :=
      (pre_matches.enum.filter (fun p => p.2.isNone)).map (·.1)
    let unmatched_findings : List Finding :=
      unmatched_indices.filterMap (findings.get? ·)
    let used_expected : Finset Nat := (pre0.filterMap id).toFinset
    let remaining := remainingExpected ground_truth.expected_findings used_expected
    (mergeMatches pre_matches unmatched_indices llmMatches,
     some ⟨unmatched_findings, remaining⟩)

/-! Section: the result parser, `src/evaluate.py` lines 27-58.  The two
regular expressions and the stdout-block search are compiled by hand into
deterministic scanning functions; each definition's doc comment records
the regex it implements and why the compilation is faithful (greedy
quantifiers followed by a disjoint character class admit no backtracking;
the remaining backtracking choices are enumerated explicitly). -/

/-- Python regex `\s` (ASCII range, as all inputs here are ASCII). -/
def isPySpace (c : Char) : Bool :=
  c = ' ' ∨ c = '\t' ∨ c = '\n' ∨ c = '\r' ∨ c = Char.ofNat 11 ∨ c = Char.ofNat 12

/-- Length of the maximal whitespace run at the head of `s`. -/
def leadingWs (s : List Char) : Nat := (s.takeWhile isPySpace).length

/-- Anchored literal match: consume `pat` from the head of `s`. -/
def stripLit (pat s : List Char) : Option (List Char) :=
  if pat.isPrefixOf s then some (s.drop pat.length) else none

/-- Character class `[\d.]` of the duration regex. -/
def isDigitDot (c : Char) : Bool := c.isDigit ∨ c = '.'

/-- Anchored match of `_DURATION_RE`, the regex
`\|\s*Duration\s*\|\s*([\d.]+)s\s*\|`, returning group 1.  Every `\s*`
and the `[\d.]+` here is followed by a character outside its class, so
greedy matching is exactly maximal munch and no backtracking can occur. -/
def matchDurationAt (s : List Char) : Option (List Char) := do
  let s1 ← stripLit ['|'] s
  let s2 ← stripLit "Duration".data (s1.dropWhile isPySpace)
  let s3 ← stripLit ['|'] (s2.dropWhile isPySpace)
  let s4 := s3.dropWhile isPySpace
  let grp := s4.takeWhile isDigitDot
  if grp.isEmpty then none
  else do
    let s5 ← stripLit ['s'] (s4.drop grp.length)
    let _ ← stripLit ['|'] (s5.dropWhile isPySpace)
    return grp

/-- Leftmost search (`re.search`) with `_DURATION_RE`. -/
def searchDuration : List Char → Option (List Char)
  | [] => none
  | c :: rest => matchDurationAt (c :: rest) <|> searchDuration rest

/-- Value of a digit string (most significant first). -/
def digitsToNat (ds : List Char) : Nat :=
  ds.foldl (fun n c => 10 * n + (c.toNat - 48)) 0

/-- Python `float()` applied to a string drawn from `[\d.]+`: defined iff
the string has at most one dot and at least one digit, else `ValueError`
(`none`). -/
def pyFloatDigits (s : List Char) : Option ℚ :=
  let dots := s.countP (· = '.')
  if dots = 0 then
    if s.isEmpty then none else some (digitsToNat s : ℚ)
  else if dots = 1 then
    let intPart := s.takeWhile (· ≠ '.')
    let fracPart := (s.dropWhile (· ≠ '.')).drop 1
    if intPart.isEmpty ∧ fracPart.isEmpty then none
    else some ((digitsToNat intPart : ℚ) +
      (digitsToNat fracPart : ℚ) / ((10 : ℚ) ^ fracPart.length))
  else none

/-- The duration extraction of `parse_result_markdown` (source lines
33-34): group 1 of the first `_DURATION_RE` match fed to `float`, or
`0.0` when the regex does not match. -/
def durationOf (text : List Char) : Option ℚ :=
  match searchDuration text with
  | some grp => pyFloatDigits grp
  | none => some 0

/-- Lazy `(.*?)` (DOTALL): the shortest prefix after which `tailOk`
matches; `none` when no split of the remaining input works. -/
def lazyContent (tailOk : List Char → Bool) : List Char → Option (List Char)
  | [] => if tailOk [] then some [] else none
  | c :: rest =>
    if tailOk (c :: rest) then some []
    else (lazyContent tailOk rest).map (fun cs => c :: cs)

/-- Greedy `\s*\n` right before a lazy group: the engine tries the
longest whitespace prefix first, so candidate newline positions `j` are
tried in descending order inside the whitespace run; the first `j` whose
continuation matches wins. -/
def openFenceScan (tailOk : List Char → Bool) (s : List Char) :
    Nat → Option (List Char)
  | 0 => none
  | j + 1 =>
    (if s.get? j = some '\n' then lazyContent tailOk (s.drop (j + 1)) else none)
      <|> openFenceScan tailOk s j

/-- Three backticks, the fence delimiter. -/
def backticks3 : List Char := ['`', '`', '`']

/-- Does `\n```\s*\n(?=## stderr)` match at the head of `s`?  Since `#`
is not whitespace, the greedy `\s*` is forced to the whole run minus the
final literal `\n`. -/
def stdoutTailAt (s : List Char) : Bool :=
  match stripLit ('\n' :: backticks3) s with
  | none => false
  | some s1 =>
    let k := leadingWs s1
    decide (1 ≤ k) && decide (s1.get? (k - 1) = some '\n')
      && "## stderr".data.isPrefixOf (s1.drop k)

/-- Anchored match of the stdout-block regex (source line 37)
`## stdout\s*\n```\s*\n(.*?)\n```\s*\n(?=## stderr)` with DOTALL,
returning group 1.  The first `\s*\n` is followed by a backtick (not
whitespace), forcing the whole whitespace run with a final `\n`; the
second backtracks over newline positions (`openFenceScan`) because the
lazy group can start with anything. -/
def matchStdoutAt (s : List Char) : Option (List Char) := do
  let s1 ← stripLit "## stdout".data s
  let k := leadingWs s1
  if 1 ≤ k ∧ s1.get? (k - 1) = some '\n' then do
    let s2 ← stripLit backticks3 (s1.drop k)
    openFenceScan stdoutTailAt s2 (leadingWs s2)
  else none

/-- Leftmost search for the stdout block. -/
def searchStdout : List Char → Option (List Char)
  | [] => none
  | c :: rest => matchStdoutAt (c :: rest) <|> searchStdout rest

/-- Closing delimiter `\n```` of `_JSON_RE` (nothing follows it). -/
def jsonTailAt (s : List Char) : Bool :=
  (stripLit ('\n' :: backticks3) s).isSome

/-- Anchored match of `_JSON_RE`, the regex ` ```json\s*\n(.*?)\n``` `
with DOTALL, returning group 1. -/
def matchJsonFenceAt (s : List Char) : Option (List Char) := do
  let s1 ← stripLit "```json".data s
  openFenceScan jsonTailAt s1 (leadingWs s1)

/-- Leftmost search with `_JSON_RE` inside the stdout block. -/
def searchJsonFence : List Char → Option (List Char)
  | [] => none
  | c :: rest => matchJsonFenceAt (c :: rest) <|> searchJsonFence rest

/-! Section: a model of `json.loads` (Python standard library, strict
mode), used by the result parser.  Values are modelled by the inductive
`Json`; numbers are exact rationals.  `\uXXXX` escapes outside the BMP
surrogate mechanism and `int()`/`str()` coercions of unusually-typed
fields are noted where simplified. -/

/-- JSON values. -/
inductive Json where
  | null
  | bool (b : Bool)
  | num (q : ℚ)
  | str (s : String)
  | arr (elems : List Json)
  | obj (fields : List (String × Json))

/-- JSON inter-token whitespace (space, tab, newline, carriage return). -/
def isJsonWs (c : Char) : Bool :=
  c = ' ' ∨ c = '\t' ∨ c = '\n' ∨ c = '\r'

/-- Skip JSON whitespace. -/
def skipJsonWs (s : List Char) : List Char := s.dropWhile isJsonWs

/-- Value of one hex digit. -/
def hexVal (c : Char) : Option Nat :=
  if '0' ≤ c ∧ c ≤ '9' then some (c.toNat - 48)
  else if 'a' ≤ c ∧ c ≤ 'f' then some (c.toNat - 87)
  else if 'A' ≤ c ∧ c ≤ 'F' then some (c.toNat - 55)
  else none

/-- Single-character JSON escapes. -/
def escChar (c : Char) : Option Char :=
  if c = '"' then some '"'
  else if c = '\\' then some '\\'
  else if c = '/' then some '/'
  else if c = 'b' then some (Char.ofNat 8)
  else if c = 'f' then some (Char.ofNat 12)
  else if c = 'n' then some '\n'
  else if c = 'r' then some '\r'
  else if c = 't' then some '\t'
  else none

/-- Parse the body of a JSON string (opening quote already consumed),
returning the decoded characters and the rest of the input.  Strict mode:
raw control characters below 0x20 are rejected.  Surrogate-pair `\u`
decoding is simplified to a single `Char.ofNat`. -/
def parseStringChars : List Char → Option (List Char × List Char)
  | [] => none
  | c :: rest =>
    if c = '"' then some ([], rest)
    else if c = '\\' then
      match rest with
      | [] => none
      | e :: rest2 =>
        if e = 'u' then
          match rest2 with
          | h1 :: h2 :: h3 :: h4 :: rest3 => do
            let n1 ← hexVal h1
            let n2 ← hexVal h2
            let n3 ← hexVal h3
            let n4 ← hexVal h4
            let p ← parseStringChars rest3
            return (Char.ofNat (((n1 * 16 + n2) * 16 + n3) * 16 + n4) :: p.1, p.2)
          | _ => none
        else do
          let d ← escChar e
          let p ← parseStringChars rest2
          return (d :: p.1, p.2)
    else if c.toNat < 32 then none
    else do
      let p ← parseStringChars rest
      return (c :: p.1, p.2)

/-- Exponent part of a JSON number, after the `e`/`E`: returns
(value, rest, ok). -/
def parseExpPart (r : List Char) : Int × List Char × Bool :=
  let (eneg, r1) := match r with
    | '+' :: t => (false, t)
    | '-' :: t => (true, t)
    | _ => (false, r)
  let ds := r1.takeWhile Char.isDigit
  if ds.isEmpty then (0, r, false)
  else (if eneg then -(digitsToNat ds : Int) else (digitsToNat ds : Int),
    r1.drop ds.length, true)

/-- Parse a JSON number: `-? (0 | [1-9][0-9]*) (\.[0-9]+)? ([eE][+-]?[0-9]+)?`. -/
def parseNumber (s0 : List Char) : Option (ℚ × List Char) :=
  let (neg, s1) := match s0 with
    | '-' :: r => (true, r)
    | _ => (false, s0)
  let intDigits := s1.takeWhile Char.isDigit
  if intDigits.isEmpty then none
  else if 2 ≤ intDigits.length ∧ intDigits.headD '0' = '0' then none
  else
    let s2 := s1.drop intDigits.length
    let step2 : Option (List Char × List Char) := match s2 with
      | '.' :: r =>
        let fd := r.takeWhile Char.isDigit
        if fd.isEmpty then none else some (fd, r.drop fd.length)
      | _ => some ([], s2)
    match step2 with
    | none => none
    | some (fracDigits, s3) =>
      let step3 : Option (Int × List Char) := match s3 with
        | 'e' :: r =>
          let t := parseExpPart r
          if t.2.2 then some (t.1, t.2.1) else none
        | 'E' :: r =>
          let t := parseExpPart r
          if t.2.2 then some (t.1, t.2.1) else none
        | _ => some (0, s3)
      match step3 with
      | none => none
      | some (expVal, s4) =>
        let mant : ℚ := (digitsToNat intDigits : ℚ) +
          (digitsToNat fracDigits : ℚ) / ((10 : ℚ) ^ fracDigits.length)
        let signed := if neg then -mant else mant
        some (signed * (10 : ℚ) ^ expVal, s4)

mutual

/-- Parse one JSON value at the head of the input (fuel-indexed recursive
descent; the top level supplies ample fuel). -/
def parseValue : Nat → List Char → Option (Json × List Char)
  | 0, _ => none
  | fuel + 1, s =>
    match s with
    | [] => none
    | '"' :: rest =>
      (parseStringChars rest).map (fun p => (Json.str (String.mk p.1), p.2))
    | '{' :: rest =>
      (match skipJsonWs rest with
       | '}' :: r2 => some (Json.obj [], r2)
       | r1 => (parseFields fuel r1).map (fun p => (Json.obj p.1, p.2)))
    | '[' :: rest =>
      (match skipJsonWs rest with
       | ']' :: r2 => some (Json.arr [], r2)
       | r1 => (parseElems fuel r1).map (fun p => (Json.arr p.1, p.2)))
    | c :: _ =>
      if "true".data.isPrefixOf s then some (Json.bool true, s.drop 4)
      else if "false".data.isPrefixOf s then some (Json.bool false, s.drop 5)
      else if "null".data.isPrefixOf s then some (Json.null, s.drop 4)
      else if c.isDigit ∨ c = '-' then
        (parseNumber s).map (fun p => (Json.num p.1, p.2))
      else none

/-- Parse the non-empty element list of a JSON array. -/
def parseElems : Nat → List Char → Option (List Json × List Char)
  | 0, _ => none
  | fuel + 1, s => do
    let (v, r1) ← parseValue fuel s
    match skipJsonWs r1 with
    | ',' :: r2 => do
      let (vs, r3) ← parseElems fuel (skipJsonWs r2)
      return (v :: vs, r3)
    | ']' :: r2 => return ([v], r2)
    | _ => none

/-- Parse the non-empty field list of a JSON object. -/
def parseFields : Nat → List Char → Option (List (String × Json) × List Char)
  | 0, _ => none
  | fuel + 1, s =>
    match s with
    | '"' :: rest => do
      let kp ← parseStringChars rest
      match skipJsonWs kp.2 with
      | ':' :: r2 => do
        let (v, r3) ← parseValue fuel (skipJsonWs r2)
        match skipJsonWs r3 with
        | ',' :: r4 => do
          let (fs, r5) ← parseFields fuel (skipJsonWs r4)
          return ((String.mk kp.1, v) :: fs, r5)
        | '}' :: r4 => return ([(String.mk kp.1, v)], r4)
        | _ => none
      | _ => none
    | _ => none

end

/-- Model of `json.loads`: one JSON document, optionally surrounded by
whitespace; anything else (including trailing data) raises. -/
def jsonParse (s : List Char) : Option Json := do
  let s1 := skipJsonWs s
  let (v, r) ← parseValue (2 * s1.length + 2) s1
  if (skipJsonWs r).isEmpty then return v else none

/-- Python `dict` lookup on parsed JSON object fields (on duplicate keys
the last occurrence wins, as in `json.loads`). -/
def jsonLookup (fields : List (String × Json)) (key : String) : Option Json :=
  (fields.reverse.find? (fun p => p.1 = key)).map (·.2)

/-- The `str(...)` applied to the string-typed fields of a finding.
Coercion of non-string JSON values (e.g. `str(3) = "3"`) is not
modelled: such documents occur in no claim. -/
def asStr : Json → Option String
  | .str s => some s
  | _ => none

/-- Truncation toward zero, the behaviour of Python `int()` on a float. -/
def pyTruncInt (q : ℚ) : Int := if 0 ≤ q then ⌊q⌋ else ⌈q⌉

/-- The `int(...)` applied to `confidence` and the `line_range` entries:
numbers truncate toward zero, booleans coerce; `int()` of numeric strings
is not modelled. -/
def asInt : Json → Option Int
  | .num q => some (pyTruncInt q)
  | .bool b => some (if b then 1 else 0)
  | _ => none

/-- Require a JSON array (indexing anything else raises here). -/
def asArr : Json → Option (List Json)
  | .arr xs => some xs
  | _ => none

/-- Construction of one `Finding` from a JSON findings-array element
(source lines 47-55); any missing key or ill-typed field raises. -/
def findingOfJson (j : Json) : Option Finding :=
  match j with
  | .obj fields => do
    let category ← jsonLookup fields "category" >>= asStr
    let severity ← jsonLookup fields "severity" >>= asStr
    let confidence ← jsonLookup fields "confidence" >>= asInt
    let file ← jsonLookup fields "file" >>= asStr
    let lr ← jsonLookup fields "line_range" >>= asArr
    let lr0 ← lr.get? 0 >>= asInt
    let lr1 ← lr.get? 1 >>= asInt
    let description ← jsonLookup fields "description" >>= asStr
    let reasoning ← jsonLookup fields "reasoning" >>= asStr
    return ⟨category, severity, confidence, file, (lr0, lr1), description, reasoning⟩
  | _ => none

/-- The findings-list construction of `parse_result_markdown` (source
lines 45-57): the parsed document must be a dict (`raw.get` on anything
else raises); a missing `findings` key defaults to the empty list. -/
def findingsOfJson (raw : Json) : Option (List Finding) :=
  match raw with
  | .obj fields =>
    (match jsonLookup fields "findings" with
     | none => some []
     | some v => do
       let elems ← asArr v
       optionMapM findingOfJson elems)
  | _ => none

/-- Model of `parse_result_markdown` (source lines 31-58): extract the
findings JSON and the duration from a result markdown string.  `none`
models an uncaught exception (malformed float in the duration row, or a
present json fence whose contents `json.loads` rejects). -/
def parse_result_markdown (text : List Char) : Option (List Finding × ℚ) := do
  let duration ← durationOf text
  let stdout_block := (searchStdout text).getD []
  match searchJsonFence stdout_block with
  | none => return ([], duration)
  | some payload => do
    let raw ← jsonParse payload
    let findings ← findingsOfJson raw
    return (findings, duration)

/-! Section: the container runner and orchestrator, `src/evaluator.py`.
Filesystem paths are modelled as component lists; the Docker client, the
monotonic clock and thread scheduling are modelled by explicit script
arguments. -/

/-- Model of `SkillConfig` (a resolved path and a display name). -/
structure SkillConfig where
  pathComponents : List String
  name : String
deriving DecidableEq, Repr

/-- Python `Path.name`: the final path component. -/
def pathName (components : List String) : String :=
  (components.getLast?).getD ""

/-- Model of `ScenarioConfig`. -/
structure ScenarioConfig where
  pathComponents : List String
  name : String
deriving DecidableEq, Repr

/-- Model of `ContainerConfig`. -/
structure ContainerConfig where
  image : String
  mem_limit : String
  timeout_seconds : Int
  env_vars : List (String × String)
  prompt : String
  extra_flags : List String := []
deriving DecidableEq, Repr

/-- Model of `ContainerStatus`. -/
structure ContainerStatus where
  skill_name : String
  state : String
  memory_usage : String
  duration_seconds : ℚ
  container_name : String := ""
deriving DecidableEq, Repr

/-- Model of `EvalResult`. -/
structure EvalResult where
  skill_name : String
  exit_code : Int
  stdout : String
  stderr : String
  duration_seconds : ℚ
  error : Option String
  peak_memory_bytes : Int := 0
deriving DecidableEq, Repr

/-- Model of `_make_status` (source lines 133-142). -/
def _make_status (skill_name state : String) (duration : ℚ)
    (container_name : String := "") : ContainerStatus :=
  { skill_name := skill_name
    state := state
    memory_usage := ""
    duration_seconds := duration
    container_name := container_name }

/-- Model of `_classify_error` (source lines 145-150): exit 0 is no
error; a nonzero exit with the runtime OOM flag is `oom_killed`; any
other nonzero exit `N` is `nonzero_exit:N`. -/
def _classify_error (exit_code : Int) (oom_killed : Bool) : Option String :=
  if exit_code = 0 then none
  else if oom_killed then some "oom_killed"
  else some ("nonzero_exit:" ++ toString exit_code)

/-- Outcome of `container.wait(timeout=...)`: a status code, a
`ReadTimeout`, or some other exception. -/
inductive WaitOutcome where
  | completes (statusCode : Int)
  | readTimeout
  | raiseOther
deriving DecidableEq, Repr

/-- Script for one run's interactions with the Docker client and the
clock: which calls succeed, what they return, and the elapsed time the
monotonic clock reports (a single reading suffices for the claims
proved here, which do not concern durations). -/
structure DockerScript where
  createOk : Bool
  containerName : String
  startOk : Bool
  waitOutcome : WaitOutcome
  reloadOk : Bool
  oomKilled : Bool
  logsOk : Bool
  stdoutLog : String
  stderrLog : String
  stopRaises : Bool
  removeRaises : Bool
  elapsed : ℚ
deriving DecidableEq, Repr

/-- Observable calls `run_evaluation` makes against the Docker client and
the status observer, in order. -/
inductive DockerEvent where
  | createCalled
  | statusEmitted (s : ContainerStatus)
  | startCalled
  | waitCalled
  | stopCalled
  | removeCalled (force : Bool)
deriving DecidableEq, Repr

/-- The run label (source lines 171-173): `skill.path.name/scenario.name`
when a scenario is present, else the skill display name. -/
def resultLabel (skill : SkillConfig) (scenario : Option ScenarioConfig) :
    String :=
  match scenario with
  | some sc => pathName skill.pathComponents ++ "/" ++ sc.name
  | none => skill.name

/-- The code of the `try:` body of `run_evaluation` (source lines
200-244), producing the returned result (or the propagated exception)
and the trace of calls it makes.  Container creation has already
succeeded. -/
def runEvaluationBody (label : String) (cache : List (String × Int))
    (script : DockerScript) : Except Unit EvalResult × List DockerEvent :=
  let cname := script.containerName
  let ev0 := [DockerEvent.statusEmitted (_make_status label "starting" 0 cname)]
  if ¬script.startOk then (Except.error (), ev0 ++ [DockerEvent.startCalled])
  else
    let ev1 := ev0 ++ [DockerEvent.startCalled,
      DockerEvent.statusEmitted (_make_status label "running" script.elapsed cname),
      DockerEvent.waitCalled]
    match script.waitOutcome with
    | WaitOutcome.raiseOther => (Except.error (), ev1)
    | WaitOutcome.readTimeout =>
      -- except ReadTimeout: best-effort stop (errors suppressed), emit
      -- `timeout`, return exit −1 / error "timeout"
      (Except.ok
        { skill_name := label
          exit_code := -1
          stdout := ""
          stderr := ""
          duration_seconds := script.elapsed
          error := some "timeout" },
       ev1 ++ [DockerEvent.stopCalled,
         DockerEvent.statusEmitted (_make_status label "timeout" script.elapsed cname)])
    | WaitOutcome.completes exitCode =>
      if ¬script.reloadOk then (Except.error (), ev1)
      else if ¬script.logsOk then (Except.error (), ev1)
      else
        let error := _classify_error exitCode script.oomKilled
        let state := if error.isSome then "failed" else "completed"
        let peak := ((cache.reverse.find? (fun p => p.1 = cname)).map (·.2)).getD 0
        (Except.ok
          { skill_name := label
            exit_code := exitCode
            stdout := script.stdoutLog
            stderr := script.stderrLog
            duration_seconds := script.elapsed
            error := error
            peak_memory_bytes := peak },
         ev1 ++ [DockerEvent.statusEmitted (_make_status label state script.elapsed cname)])

/-- Model of `run_evaluation` (source lines 161-248): create the
container, run the `try:` body, and in the `finally:` block remove the
container with `force=True`, suppressing any exception the removal
raises (so `removeRaises` cannot influence anything).  When creation
itself fails the exception propagates with no removal attempted.
The construction of `create_kwargs` (volumes, entrypoint, command) is
not modelled; no claim concerns it. -/
def run_evaluation (skill : SkillConfig) (_config : ContainerConfig)
    (scenario : Option ScenarioConfig) (cache : List (String × Int))
    (script : DockerScript) : Except Unit EvalResult × List DockerEvent :=
  let label := resultLabel skill scenario
  if ¬script.createOk then (Except.error (), [DockerEvent.createCalled])
  else
    let body := runEvaluationBody label cache script
    (body.1, DockerEvent.createCalled :: body.2 ++ [DockerEvent.removeCalled true])

/-- The pair expansion of `run_evaluations` (source lines 261-265):
the Cartesian product in (skill-major, scenario-minor) order when
scenarios is non-empty, else one pair per skill. -/
def expandPairs (skills : List SkillConfig) (scenarios : List ScenarioConfig) :
    List (SkillConfig × Option ScenarioConfig) :=
  if ¬scenarios.isEmpty then
    skills.flatMap (fun s => scenarios.map (fun sc => (s, some sc)))
  else skills.map (fun s => (s, none))

/-- Model of `run_evaluations` (source lines 250-289): run every pair on
the worker pool and collect results; on `KeyboardInterrupt` after `k`
results were collected, the partial list is returned.  Per-run behaviour
is abstracted into `runner`; `as_completed` yields results in an
unspecified order, modelled here as submission order (every claim proved
about this function concerns only the result count). -/
def run_evaluations (skills : List SkillConfig)
    (scenarios : List ScenarioConfig)
    (runner : SkillConfig × Option ScenarioConfig → EvalResult)
    (interruptAfter : Option Nat) : List EvalResult :=
  let results := (expandPairs skills scenarios).map runner
  match interruptAfter with
  | none => results
  | some k => results.take k

/-! Section: reference scoring definitions, written from the
specification text (claim C4), to be compared with the code model
`score_scenario`.  These follow the spec wording: `M` is the set of
expected indices present in matches, `C` is `M` expanded with each
member's `consolidated_with` group, TP = `|C|`, FP = number of nulls,
FN = `|expected| − TP`, and the precision/recall/F0.5 conventions. -/

/-- Reference definition: the set `M` of expected indices present in the
matches vector. -/
def specMatchedSet (ms : List (Option Int)) : Finset Int :=
  (ms.filterMap id).toFinset

/-- Reference definition: `C = M ∪ ⋃ expected[i].consolidated_with for
i ∈ M` (matching one member of a consolidated group credits the whole
group). -/
def specConsolidatedSet (expected : List ExpectedFinding)
    (ms : List (Option Int)) : Finset Int :=
  specMatchedSet ms ∪ (specMatchedSet ms).biUnion
    (fun i => ((expected.getD i.toNat default).consolidated_with).toFinset)

/-- Reference definition: TP = `|C|`. -/
def specTP (expected : List ExpectedFinding) (ms : List (Option Int)) : Nat :=
  (specConsolidatedSet expected ms).card

/-- Reference definition: FP = number of null entries in matches. -/
def specFP (ms : List (Option Int)) : Nat := ms.countP (·.isNone)

/-- Reference definition: FN = `|expected| − TP`. -/
def specFN (expected : List ExpectedFinding) (ms : List (Option Int)) : Int :=
  (expected.length : Int) - (specTP expected ms : Int)

/-- Reference definition: precision = TP/(TP+FP), 1.0 when TP+FP = 0. -/
def specPrecision (expected : List ExpectedFinding) (ms : List (Option Int)) : ℚ :=
  if specTP expected ms + specFP ms = 0 then 1
  else (specTP expected ms : ℚ) / ((specTP expected ms : ℚ) + (specFP ms : ℚ))

/-- Reference definition: recall = TP/(TP+FN), 1.0 when TP+FN = 0. -/
def specRecall (expected : List ExpectedFinding) (ms : List (Option Int)) : ℚ :=
  if (specTP expected ms : Int) + specFN expected ms = 0 then 1
  else (specTP expected ms : ℚ) /
    ((specTP expected ms : ℚ) + (specFN expected ms : ℚ))

/-- Reference definition: F0.5 = (1+β²)·P·R/(β²·P+R) with β² = 0.25,
and 0.0 when P+R = 0. -/
def specF05 (expected : List ExpectedFinding) (ms : List (Option Int)) : ℚ :=
  if specPrecision expected ms + specRecall expected ms = 0 then 0
  else (1 + (1 / 4 : ℚ)) * specPrecision expected ms * specRecall expected ms /
    ((1 / 4 : ℚ) * specPrecision expected ms + specRecall expected ms)

/-! Section: concrete fixtures shared by the closed theorems below. -/

/-- A concrete finding on `file` covering lines `a`-`b`. -/
def exFinding (file : String) (a b : Int) : Finding :=
  { category := "security", severity := "high", confidence := 100,
    file := file, line_range := (a, b), description := "d", reasoning := "r" }

/-- A concrete expected finding on `file` covering lines `a`-`b` with a
given consolidation group. -/
def exExpected (file : String) (a b : Int) (cons : List Int := []) :
    ExpectedFinding :=
  { category := "security", severity := "high", file := file,
    line_range := (a, b), description := "d", keywords := ["k"],
    consolidated_with := cons }

/-- A concrete ground truth around a list of expected findings. -/
def exGroundTruth (efs : List ExpectedFinding) : GroundTruth :=
  { expected_findings := efs, expected_clean := false,
    max_acceptable_findings := 3, language := "python", difficulty := "easy" }

/-- A concrete Docker script in which every call succeeds. -/
def exScript : DockerScript :=
  { createOk := true, containerName := "c1", startOk := true,
    waitOutcome := WaitOutcome.completes 0, reloadOk := true,
    oomKilled := false, logsOk := true, stdoutLog := "ok", stderrLog := "",
    stopRaises := false, removeRaises := false, elapsed := 2 }

/-- A concrete container config. -/
def exConfig : ContainerConfig :=
  { image := "img", mem_limit := "1g", timeout_seconds := 300,
    env_vars := [], prompt := "p", extra_flags := [] }

/-- A concrete skill config. -/
def exSkill : SkillConfig := { pathComponents := ["skills", "v0"], name := "v0" }

/-! Section: claim theorems. -/

/-- Claim C5: `_classify_error` maps exit 0 to no error; any nonzero exit
with the OOMKilled flag true to `oom_killed`; any other nonzero exit `N`
to `nonzero_exit:N`; in particular exit 137 with OOMKilled=false yields
`nonzero_exit:137`, not an OOM classification. -/
theorem classify_error_spec (e : Int) (oom : Bool) :
    _classify_error 0 oom = none ∧
    (e ≠ 0 → oom = true → _classify_error e oom = some "oom_killed") ∧
    (e ≠ 0 → oom = false →
      _classify_error e oom = some ("nonzero_exit:" ++ toString e)) ∧
    _classify_error 137 false = some "nonzero_exit:137" ∧
    _classify_error 137 true = some "oom_killed" := by
  refine ⟨by simp [_classify_error], ?_, ?_, by decide, by decide⟩
  · intro he ho
    simp [_classify_error, he, ho]
  · intro he ho
    simp [_classify_error, he, ho]

/-- Witness for C5 at exit code 137. -/
theorem classify_error_spec_witness :
    _classify_error 137 true = some "oom_killed" ∧
    _classify_error 137 false = some ("nonzero_exit:" ++ toString (137 : Int)) :=
  ⟨(classify_error_spec 137 true).2.1 (by decide) rfl,
   (classify_error_spec 137 false).2.2.1 (by decide) rfl⟩

/-- Claim C9: nothing bounds the integers of a schema-valid
`MatchResponse`, and feeding its out-of-range index 5 (with only one
expected finding) into `score_scenario` makes the consolidation lookup
`expected_findings[5]` raise `IndexError` (modelled `none`) instead of
returning a result. -/
theorem score_scenario_crashes_on_unvalidated_llm_index :
    matchResponseSchemaOk (MatchResponse.mk "plausible" [some 5]) ∧
    score_scenario "s" "k" [exFinding "a.py" 1 2]
      (exGroundTruth [exExpected "a.py" 1 2])
      (MatchResponse.mk "plausible" [some 5]).matches' 0 = none := by
  constructor
  · decide
  · decide

/-- Claim C1 (failing input): with one expected finding whose
`consolidated_with` group mentions the nonexistent sibling 1, the single
match `[0]` gives TP = 2 > 1 = `|expected|`, and the code returns
FN = −1 (no clamping) and recall = 2 ∉ [0,1]. -/
theorem score_scenario_fn_goes_negative :
    (score_scenario "s" "k" [exFinding "a.py" 1 2]
        (exGroundTruth [exExpected "a.py" 1 2 [1]]) [some 0] 0).map
      (fun r => (r.true_positives, r.false_negatives, r.recall'))
      = some (2, -1, 2) := by
  simp [score_scenario, optionMapM, consolidationOf, pyGetList, exFinding,
    exExpected, exGroundTruth, count_duplicates, sortedInts, insertAsc,
    List.dedup]

/-- Claim C6: once container creation succeeds, `run_evaluation` removes
the container with `force=true` on every exit path — normal completion,
timeout return, and any exception raised after creation — and errors
arising from the removal itself are suppressed (the outcome does not
depend on whether removal raises). -/
theorem run_evaluation_always_removes (skill : SkillConfig)
    (config : ContainerConfig) (scenario : Option ScenarioConfig)
    (cache : List (String × Int)) (script : DockerScript)
    (h : script.createOk = true) :
    DockerEvent.removeCalled true ∈
      (run_evaluation skill config scenario cache script).2 ∧
    ∀ b, run_evaluation skill config scenario cache
        { script with removeRaises := b }
      = run_evaluation skill config scenario cache script := by
  constructor
  · simp [run_evaluation, h]
  · intro b
    cases script
    rfl

/-- Witness for C6: the removal call is present on the all-success path. -/
theorem run_evaluation_always_removes_witness :
    DockerEvent.removeCalled true ∈
      (run_evaluation exSkill exConfig none [] exScript).2 :=
  (run_evaluation_always_removes exSkill exConfig none [] exScript rfl).1

/-- Claim C8: `run_evaluations` expands the work list to the Cartesian
product of skills and scenarios in (skill-major, scenario-minor) order
when scenarios is non-empty, else one pair per skill; the number of
results is at most `|skills| × max(1, |scenarios|)` and equals it when
no interrupt occurs. -/
theorem run_evaluations_pair_count (skills : List SkillConfig)
    (scenarios : List ScenarioConfig)
    (runner : SkillConfig × Option ScenarioConfig → EvalResult) (k : Nat) :
    (scenarios ≠ [] → expandPairs skills scenarios
      = (List.product skills scenarios).map (fun p => (p.1, some p.2))) ∧
    (scenarios = [] → expandPairs skills scenarios
      = skills.map (fun s => (s, none))) ∧
    (run_evaluations skills scenarios runner none).length
      = skills.length * max 1 scenarios.length ∧
    (run_evaluations skills scenarios runner (some k)).length
      ≤ skills.length * max 1 scenarios.length := by
  have hprod : scenarios ≠ [] → expandPairs skills scenarios
      = (List.product skills scenarios).map (fun p => (p.1, some p.2)) := by
    intro h
    have hne : scenarios.isEmpty = false := by
      cases scenarios with
      | nil => exact absurd rfl h
      | cons a l => rfl
    unfold expandPairs
    rw [if_pos (by simp [hne])]
    simp only [List.product, List.map_flatMap, List.map_map]
    rfl
  have hexp : (expandPairs skills scenarios).length
      = skills.length * max 1 scenarios.length := by
    cases scenarios with
    | nil => simp [expandPairs]
    | cons sc rest =>
      rw [hprod (by simp), List.length_map]
      show (skills ×ˢ (sc :: rest)).length = _
      rw [List.length_product,
        Nat.max_eq_right (show 1 ≤ (sc :: rest).length by simp)]
  refine ⟨hprod, ?_, ?_, ?_⟩
  · intro h
    simp [expandPairs, h]
  · simpa [run_evaluations] using hexp
  · calc (run_evaluations skills scenarios runner (some k)).length
        ≤ ((expandPairs skills scenarios).map runner).length := by
          simp [run_evaluations, List.length_take]
      _ = skills.length * max 1 scenarios.length := by simpa using hexp

/-- A concrete eval result for witnesses. -/
def exResult : EvalResult :=
  { skill_name := "x", exit_code := 0, stdout := "", stderr := "",
    duration_seconds := 0, error := none }

/-- Witness for C8 at one skill and one scenario. -/
theorem run_evaluations_pair_count_witness :
    expandPairs [exSkill] [ScenarioConfig.mk ["sc"] "sc"]
      = (List.product [exSkill] [ScenarioConfig.mk ["sc"] "sc"]).map
          (fun p => (p.1, some p.2)) :=
  (run_evaluations_pair_count [exSkill] [ScenarioConfig.mk ["sc"] "sc"]
    (fun _ => exResult) 0).1 (by simp)

/-- Length of the deterministic pre-match output equals the number of
findings. -/
theorem preMatchAux_length (fs : List Finding) (expected : List ExpectedFinding)
    (used : Finset Nat) : (preMatchAux fs expected used).length = fs.length := by
  induction fs generalizing used with
  | nil => rfl
  | cons f rest ih =>
    unfold preMatchAux
    cases scanExpected f expected 0 used <;> simp [ih]

/-- Claim C3 (counterexample): with two findings of which the first
claims the only expected entry deterministically and the second matches
nothing, no expected entry remains unclaimed — yet the code still issues
an LLM request, whose payload has an empty expected list.  This refutes
the claimed "if and only if ... AND some expected finding is still
unclaimed". -/
theorem match_findings_llm_calls_with_no_expected_left :
    (match_findings_llm [exFinding "a.py" 1 2, exFinding "b.py" 9 9]
        (exGroundTruth [exExpected "a.py" 1 2]) [none]).2
      = some ⟨[exFinding "b.py" 9 9], []⟩ := by
  decide

/-- Claim C3 (amended): `match_findings_llm` issues an LLM request if and
only if some actual finding remains unmatched after the deterministic
stage (so never when all actuals matched deterministically or when there
are no findings, in which case it returns the deterministic matches);
the code does not additionally require that an expected entry remain
unclaimed. -/
theorem match_findings_llm_request_iff (findings : List Finding)
    (gt : GroundTruth) (llm : List (Option Int)) :
    ((match_findings_llm findings gt llm).2.isSome ↔
      ∃ m ∈ _deterministic_pre_match findings gt.expected_findings, m = none) ∧
    ((¬ ∃ m ∈ _deterministic_pre_match findings gt.expected_findings, m = none) →
      (match_findings_llm findings gt llm).1
        = (_deterministic_pre_match findings gt.expected_findings).map
            (Option.map Int.ofNat)) := by
  set pre0 := _deterministic_pre_match findings gt.expected_findings with hpre0
  have hlen : pre0.length = findings.length := preMatchAux_length _ _ _
  have hcond : ((pre0.map (Option.map Int.ofNat)).all (·.isSome) ∨ findings = [])
      ↔ ¬ ∃ m ∈ pre0, m = none := by
    constructor
    · rintro (hall | hnil)
      · rintro ⟨m, hm, rfl⟩
        have := List.all_eq_true.mp hall (Option.map Int.ofNat none)
          (List.mem_map_of_mem _ hm)
        simp at this
      · rintro ⟨m, hm, rfl⟩
        have : pre0 = [] := List.eq_nil_of_length_eq_zero (by simp [hlen, hnil])
        simp [this] at hm
    · intro hno
      left
      apply List.all_eq_true.mpr
      intro x hx
      obtain ⟨m, hm, rfl⟩ := List.mem_map.mp hx
      cases m with
      | none => exact absurd ⟨none, hm, rfl⟩ hno
      | some j => rfl
  constructor
  · by_cases hc : ∃ m ∈ pre0, m = none
    · have hc' : ¬((pre0.map (Option.map Int.ofNat)).all (·.isSome) ∨ findings = []) :=
        fun h => (hcond.mp h) hc
      simp only [match_findings_llm, ← hpre0, if_neg hc']
      simpa using hc
    · have hc' : (pre0.map (Option.map Int.ofNat)).all (·.isSome) ∨ findings = [] :=
        hcond.mpr hc
      simp only [match_findings_llm, ← hpre0, if_pos hc']
      simpa using hc
  · intro hno
    have hc' : (pre0.map (Option.map Int.ofNat)).all (·.isSome) ∨ findings = [] :=
      hcond.mpr hno
    simp only [match_findings_llm, ← hpre0, if_pos hc']

/-- Witness for C3 (amended) at a fully deterministic match. -/
theorem match_findings_llm_request_iff_witness :
    (match_findings_llm [exFinding "a.py" 1 2]
        (exGroundTruth [exExpected "a.py" 1 2]) []).1
      = (_deterministic_pre_match [exFinding "a.py" 1 2]
          (exGroundTruth [exExpected "a.py" 1 2]).expected_findings).map
            (Option.map Int.ofNat) :=
  (match_findings_llm_request_iff _ _ _).2 (by decide)

/-- A result markdown document with a duration row and a stdout block
that contains no json fence (mirrors the repository's own test). -/
def exMdNoJson : String :=
  "# t\n\n| Field | Value |\n|-------|-------|\n| Exit Code | 0 |\n| Duration | 50.0s |\n\n## stdout\n\n```\nNo issues found.\n```\n\n## stderr\n\n```\n```\n"

/-- A result markdown document whose stdout block carries a json fence
with contents that are not valid JSON. -/
def exMdBadJson : String :=
  "# t\n\n| Duration | 5.0s |\n\n## stdout\n\n```\n```json\nnot json\n```\n```\n\n## stderr\n\n```\n```\n"

/-- Claim C2 (counterexample): on a document whose stdout block carries a
json fence with malformed contents, `parse_result_markdown` raises
(modelled `none`) instead of returning the duration with an empty
findings list — refuting "it never raises on malformed JSON content". -/
theorem parse_result_markdown_raises_on_bad_json :
    parse_result_markdown exMdBadJson.data = none := by
  decide

/-- Claim C2 (amended): whenever the json fence inside the stdout block
is missing, `parse_result_markdown` returns an empty findings list
together with the duration — the `| Duration | <float>s |` row's value,
0.0 when the row is absent (provided a present row parses as a float);
but when a fence is present with contents that are not valid JSON, the
function raises instead of returning (see the counterexample). -/
theorem parse_result_markdown_missing_fence (text : List Char) (d : ℚ)
    (hdur : durationOf text = some d)
    (hfence : searchJsonFence ((searchStdout text).getD []) = none) :
    parse_result_markdown text = some ([], d) := by
  simp [parse_result_markdown, hdur, hfence]

/-- Witness for C2 (amended) on a fence-free document with duration
50.0. -/
theorem parse_result_markdown_missing_fence_witness :
    parse_result_markdown exMdNoJson.data = some ([], 50) := by
  apply parse_result_markdown_missing_fence
  · have hs : searchDuration exMdNoJson.data = some ['5', '0', '.', '0'] := by
      decide
    simp [durationOf, hs, pyFloatDigits, digitsToNat, List.takeWhile,
      List.dropWhile, List.countP, List.countP.go]
  · decide

/-- An index returned by the inner scan was not already claimed. -/
theorem scanExpected_some_not_used (f : Finding) (exp : List ExpectedFinding)
    (j0 : Nat) (used : Finset Nat) (j : Nat)
    (h : scanExpected f exp j0 used = some j) : j ∉ used := by
  induction exp generalizing j0 with
  | nil => simp [scanExpected] at h
  | cons ef rest ih =>
    rw [scanExpected] at h
    split at h
    case isTrue hc =>
      cases h
      exact hc.1
    case isFalse hc => exact ih (j0 + 1) h

/-- Invariant of the outer loop: the claimed indices are pairwise
distinct and none of them was claimed before the loop started. -/
theorem preMatchAux_nodup_aux (fs : List Finding)
    (expected : List ExpectedFinding) (used : Finset Nat) :
    ((preMatchAux fs expected used).filterMap id).Nodup ∧
    ∀ j ∈ (preMatchAux fs expected used).filterMap id, j ∉ used := by
  induction fs generalizing used with
  | nil => simp [preMatchAux]
  | cons f rest ih =>
    rw [preMatchAux]
    cases hscan : scanExpected f expected 0 used with
    | none =>
      simpa using ih used
    | some j =>
      have hj : j ∉ used := scanExpected_some_not_used f expected 0 used j hscan
      obtain ⟨hnd, hmem⟩ := ih (insert j used)
      simp only [List.filterMap_cons, id, List.nodup_cons]
      refine ⟨⟨fun hjin => ?_, hnd⟩, ?_⟩
      · exact hmem j hjin (Finset.mem_insert_self j used)
      · intro x hx
        rcases List.mem_cons.mp hx with rfl | hx'
        · exact hj
        · intro hxu
          exact hmem x hx' (Finset.mem_insert_of_mem hxu)

/-- Claim C10: the non-`None` entries of the vector returned by
`_deterministic_pre_match` are pairwise distinct — the deterministic
stage never assigns the same expected index to two different findings,
since each claimed index enters `used_expected` and is skipped
thereafter. -/
theorem deterministic_pre_match_nodup (findings : List Finding)
    (expected : List ExpectedFinding) :
    ((_deterministic_pre_match findings expected).filterMap id).Nodup :=
  (preMatchAux_nodup_aux findings expected ∅).1

/-- When the inner scan fails, no unclaimed expected entry matches. -/
theorem scanExpected_none_no_match (f : Finding) (exp : List ExpectedFinding)
    (j0 : Nat) (used : Finset Nat)
    (h : scanExpected f exp j0 used = none) :
    ∀ k ef, exp.get? k = some ef → (j0 + k) ∉ used → matchPred f ef = false := by
  induction exp generalizing j0 with
  | nil =>
    intro k ef hk
    simp at hk
  | cons e rest ih =>
    rw [scanExpected] at h
    split at h
    case isTrue hc => exact absurd h (by simp)
    case isFalse hc =>
      intro k ef hk hku
      cases k with
      | zero =>
        simp only [List.get?_cons_zero, Option.some.injEq] at hk
        subst hk
        cases hb : matchPred f e with
        | false => rfl
        | true => exact absurd ⟨by simpa using hku, hb⟩ hc
      | succ k' =>
        have harith : j0 + 1 + k' = j0 + (k' + 1) := by omega
        exact ih (j0 + 1) h k' ef (by simpa using hk) (by rwa [harith])

/-- An unmatched finding matches no expected entry that is outside both
the initial `used` set and the indices claimed during the loop. -/
theorem preMatchAux_unmatched_no_match (fs : List Finding)
    (expected : List ExpectedFinding) (used : Finset Nat) :
    ∀ p ∈ fs.zip (preMatchAux fs expected used), p.2 = none →
      ∀ k ef, expected.get? k = some ef → k ∉ used →
        k ∉ ((preMatchAux fs expected used).filterMap id).toFinset →
        matchPred p.1 ef = false := by
  induction fs generalizing used with
  | nil => simp [preMatchAux]
  | cons f rest ih =>
    rw [preMatchAux]
    cases hscan : scanExpected f expected 0 used with
    | none =>
      intro p hp hpnone k ef hk hku hkout
      rw [List.zip_cons_cons] at hp
      rcases List.mem_cons.mp hp with rfl | hp'
      · exact scanExpected_none_no_match f expected 0 used hscan k ef hk
          (by simpa using hku)
      · exact ih used p hp' hpnone k ef hk hku (by simpa using hkout)
    | some j =>
      intro p hp hpnone k ef hk hku hkout
      simp only [List.filterMap_cons, id, List.toFinset_cons,
        Finset.mem_insert, not_or] at hkout
      rw [List.zip_cons_cons] at hp
      rcases List.mem_cons.mp hp with rfl | hp'
      · simp at hpnone
      · exact ih (insert j used) p hp' hpnone k ef hk
          (by simp [Finset.mem_insert, hku, hkout.1]) hkout.2

/-- If a finding matches no entry of the expected list, the inner scan
fails from any starting index and any claimed set. -/
theorem scanExpected_none_of_no_match (f : Finding)
    (exp : List ExpectedFinding)
    (h : ∀ ef ∈ exp, matchPred f ef = false) :
    ∀ j0 used, scanExpected f exp j0 used = none := by
  induction exp with
  | nil => intro j0 used; rfl
  | cons e rest ih =>
    intro j0 used
    rw [scanExpected, if_neg, ih (fun ef hef => h ef (List.mem_cons_of_mem _ hef))]
    rintro ⟨-, hm⟩
    rw [h e (List.mem_cons_self _ _)] at hm
    cases hm

/-- When no finding matches any expected entry, the whole deterministic
stage returns only `None`. -/
theorem preMatchAux_all_none (fs : List Finding) (exp : List ExpectedFinding)
    (h : ∀ f ∈ fs, ∀ ef ∈ exp, matchPred f ef = false) :
    ∀ used, preMatchAux fs exp used = List.replicate fs.length none := by
  induction fs with
  | nil => intro used; rfl
  | cons f rest ih =>
    intro used
    rw [preMatchAux,
      scanExpected_none_of_no_match f exp (h f (List.mem_cons_self _ _)) 0 used,
      List.length_cons, List.replicate_succ]
    exact congrArg (none :: ·)
      (ih (fun g hg => h g (List.mem_cons_of_mem _ hg)) used)

/-- The findings the deterministic stage left unmatched (the entries of
the zip whose match is `None`). -/
def unmatchedAfterPreMatch (findings : List Finding)
    (expected : List ExpectedFinding) : List Finding :=
  ((findings.zip (_deterministic_pre_match findings expected)).filter
    (fun p => p.2.isNone)).map (·.1)

/-- The expected entries the deterministic stage left unclaimed. -/
def unclaimedAfterPreMatch (findings : List Finding)
    (expected : List ExpectedFinding) : List ExpectedFinding :=
  (remainingExpected expected
    (((_deterministic_pre_match findings expected).filterMap id).toFinset)).map
    (·.2)

/-- Claim C7: the deterministic matcher matches on identical file path
plus overlapping inclusive line ranges (`a.start ≤ b.end ∧ b.start ≤
a.end`), and it is idempotent: re-applying `_deterministic_pre_match` to
the findings it left unmatched against the expected entries it left
unclaimed yields no new matches (all `None`) — a fixed point. -/
theorem deterministic_pre_match_fixed_point (findings : List Finding)
    (expected : List ExpectedFinding) :
    (∀ f ef, matchPred f ef = true ↔ (f.file = ef.file ∧
      f.line_range.1 ≤ ef.line_range.2 ∧ ef.line_range.1 ≤ f.line_range.2)) ∧
    _deterministic_pre_match (unmatchedAfterPreMatch findings expected)
        (unclaimedAfterPreMatch findings expected)
      = List.replicate (unmatchedAfterPreMatch findings expected).length none := by
  constructor
  · intro f ef
    simp [matchPred, _line_ranges_overlap]
  · apply preMatchAux_all_none
    intro f hf ef hef
    obtain ⟨p, hpfil, hp1⟩ := List.mem_map.mp hf
    obtain ⟨hpzip, hpnone⟩ := List.mem_filter.mp hpfil
    obtain ⟨q, hqfil, hq2⟩ := List.mem_map.mp hef
    rw [remainingExpected] at hqfil
    obtain ⟨hqenum, hqdec⟩ := List.mem_filter.mp hqfil
    have hqout : q.1 ∉
        ((_deterministic_pre_match findings expected).filterMap id).toFinset :=
      of_decide_eq_true hqdec
    have hget : expected.get? q.1 = some q.2 := by
      rw [List.get?_eq_getElem?]
      exact List.mk_mem_enum_iff_getElem?.mp (by
        cases q
        exact hqenum)
    subst hp1 hq2
    exact preMatchAux_unmatched_no_match findings expected ∅ p hpzip
      (by simpa using hpnone) q.1 q.2 hget (by simp) hqout

/-- The Python for-loop over a list succeeds when every step succeeds. -/
theorem optionMapM_eq_some_map {α β : Type} (f : α → Option β) (g : α → β)
    (l : List α) (h : ∀ a ∈ l, f a = some (g a)) :
    optionMapM f l = some (l.map g) := by
  induction l with
  | nil => rfl
  | cons a t ih =>
    have ht := ih (fun x hx => h x (List.mem_cons_of_mem _ hx))
    have hshape : optionMapM f (a :: t)
        = Option.bind (f a) (fun b =>
            Option.bind (optionMapM f t) (fun bs => some (b :: bs))) := rfl
    rw [hshape, h a (List.mem_cons_self _ _), ht]
    rfl

/-- Valid indices make the consolidation lookup succeed with the entry's
group. -/
theorem consolidationOf_valid (expected : List ExpectedFinding) (idx : Int)
    (h0 : 0 ≤ idx) (hlt : idx < (expected.length : Int)) :
    consolidationOf expected idx
      = some ((expected.getD idx.toNat default).consolidated_with) := by
  have hn : idx.toNat < expected.length := by omega
  rw [consolidationOf, pyGetList, if_pos h0, List.get?_eq_getElem?,
    List.getElem?_eq_getElem hn, List.getD_eq_getElem expected default hn]
  rfl

/-- Deduplication does not change the collected finite set. -/
theorem dedup_toFinset (l : List Int) : l.dedup.toFinset = l.toFinset := by
  ext x
  simp [List.mem_dedup]

/-- Flattening mapped groups and collecting into a finite set is the
indexed union over the set of sources. -/
theorem flatten_map_toFinset (l : List Int) (g : Int → List Int) :
    ((l.map g).flatten).toFinset = l.toFinset.biUnion (fun i => (g i).toFinset) := by
  induction l with
  | nil => simp
  | cons a t ih =>
    simp only [List.map_cons, List.flatten_cons, List.toFinset_append, ih,
      List.toFinset_cons, Finset.biUnion_insert]

/-- Claim C4: under match indices that are valid expected indices,
`score_scenario` agrees with the reference scoring definition: TP is the
size of the consolidation-expanded matched set, FP the number of nulls,
and precision/recall/F0.5 follow the stated formulas and conventions. -/
theorem score_scenario_matches_reference (scn skl : String)
    (findings : List Finding) (gt : GroundTruth) (ms : List (Option Int))
    (duration : ℚ)
    (hvalid : ∀ j ∈ ms.filterMap id,
      0 ≤ j ∧ j < (gt.expected_findings.length : Int)) :
    (score_scenario scn skl findings gt ms duration).map
        (fun r => (r.true_positives, r.false_positives, r.false_negatives,
          r.precision, r.recall', r.f05))
      = some (specTP gt.expected_findings ms, specFP ms,
          specFN gt.expected_findings ms,
          specPrecision gt.expected_findings ms,
          specRecall gt.expected_findings ms,
          specF05 gt.expected_findings ms) := by
  set expected := gt.expected_findings with hexp
  set g : Int → List Int :=
    fun i => (expected.getD i.toNat default).consolidated_with with hg
  set dl : List Int := (ms.filterMap id).dedup with hdl
  have hmapM : optionMapM (consolidationOf expected) dl = some (dl.map g) := by
    apply optionMapM_eq_some_map
    intro a ha
    obtain ⟨h0, hlt⟩ := hvalid a (List.mem_dedup.mp ha)
    exact consolidationOf_valid expected a h0 hlt
  have htoF : (dl ++ (dl.map g).flatten).toFinset
      = specConsolidatedSet expected ms := by
    rw [List.toFinset_append, flatten_map_toFinset, hdl, dedup_toFinset]
    rfl
  have htp : ((dl ++ (dl.map g).flatten).dedup).length = specTP expected ms := by
    rw [specTP, ← htoF, List.card_toFinset]
  -- evaluate the code on the successful consolidation lookup
  simp only [score_scenario, hmapM, Option.bind_some, Option.map_some]
  refine congrArg some ?_
  simp only [Prod.mk.injEq]
  have hfp : ms.countP (·.isNone) = specFP ms := rfl
  have hPrec : (if 0 < ((dl ++ (dl.map g).flatten).dedup).length
          + ms.countP (·.isNone) then
        (((dl ++ (dl.map g).flatten).dedup).length : ℚ) /
          ((((dl ++ (dl.map g).flatten).dedup).length : ℚ)
            + (ms.countP (·.isNone) : ℚ))
      else 1) = specPrecision expected ms := by
    rw [htp, hfp, specPrecision]
    by_cases h : specTP expected ms + specFP ms = 0
    · rw [if_neg (by omega), if_pos h]
    · rw [if_pos (by omega), if_neg h]
  have hRec : (if 0 < (((dl ++ (dl.map g).flatten).dedup).length : Int)
          + ((expected.length : Int)
            - (((dl ++ (dl.map g).flatten).dedup).length : Int)) then
        (((dl ++ (dl.map g).flatten).dedup).length : ℚ) /
          ((((dl ++ (dl.map g).flatten).dedup).length : ℚ)
            + (((expected.length : Int)
              - (((dl ++ (dl.map g).flatten).dedup).length : Int) : Int) : ℚ))
      else 1) = specRecall expected ms := by
    rw [htp, specRecall, specFN]
    by_cases h : (specTP expected ms : Int)
        + ((expected.length : Int) - (specTP expected ms : Int)) = 0
    · rw [if_neg (by omega), if_pos (by omega)]
    · rw [if_pos (by omega), if_neg (by omega)]
  refine ⟨htp, hfp, by rw [htp, specFN], hPrec, hRec, ?_⟩
  · -- F0.5 agreement, using nonnegativity of both metrics
    rw [hPrec, hRec]
    have hP0 : 0 ≤ specPrecision expected ms := by
      rw [specPrecision]
      split
      · norm_num
      · positivity
    have hR0 : 0 ≤ specRecall expected ms := by
      rw [specRecall]
      split
      · norm_num
      · rw [specFN]
        have hcast : (specTP expected ms : ℚ)
            + (((expected.length : Int) - (specTP expected ms : Int) : Int) : ℚ)
            = (expected.length : ℚ) := by
          push_cast
          ring
        rw [hcast]
        positivity
    rw [specF05]
    by_cases h : specPrecision expected ms + specRecall expected ms = 0
    · rw [if_neg (by rw [h]; exact lt_irrefl 0), if_pos h]
    · rw [if_pos ((add_nonneg hP0 hR0).lt_of_ne (Ne.symm h)), if_neg h]

/-- Witness for C4 at one expected finding and matches `[0, None]`. -/
theorem score_scenario_matches_reference_witness :
    (score_scenario "s" "k" [] (exGroundTruth [exExpected "a.py" 1 2])
        [some 0, none] 10).map
        (fun r => (r.true_positives, r.false_positives, r.false_negatives,
          r.precision, r.recall', r.f05))
      = some (specTP (exGroundTruth [exExpected "a.py" 1 2]).expected_findings
            [some 0, none],
          specFP [some 0, none],
          specFN (exGroundTruth [exExpected "a.py" 1 2]).expected_findings
            [some 0, none],
          specPrecision (exGroundTruth [exExpected "a.py" 1 2]).expected_findings
            [some 0, none],
          specRecall (exGroundTruth [exExpected "a.py" 1 2]).expected_findings
            [some 0, none],
          specF05 (exGroundTruth [exExpected "a.py" 1 2]).expected_findings
            [some 0, none]) :=
  score_scenario_matches_reference "s" "k" [] (exGroundTruth [exExpected "a.py" 1 2])
    [some 0, none] 10 (by decide)
